import Mathlib

/- Verification development for the synesthesia.space audio-reactive pipeline.

   Shallow embedding of:
   - the signal-mapper utilities `mapFrequencyToHue` / `mapAmplitudeToIntensity`
     (lib/audioVisualization.ts);
   - the ambient soundscape engine `startAmbientSoundscape` /
     `stopAmbientSoundscape` / `updateSoundscape` (lib/ambientSoundscape.ts);
   - the peak detector / auto-capture controller `detectPeak` and the
     interaction-frequency tracker (pages/Index.tsx);
   - the experience state machine `checkState` (components/StateManager.tsx);
   - the gallery persistence helper `saveScreenshot`
     (components/ScreenshotGallery.tsx).

   Numbers that the source manipulates with +, -, *, /, min, max are embedded
   as exact rationals; `Math.pow(amplitude, 0.7)` forces the real-valued
   embedding `Real.rpow` for the amplitude mapper.  JavaScript `NaN`
   propagation through `Math.min` / `Math.max` / `Math.pow` is embedded with
   an `Option` domain where `none` stands for NaN. -/

/-! ## Signal mapper (lib/audioVisualization.ts) -/

/-- Embedding of `mapFrequencyToHue` (audioVisualization.ts): clamp the
frequency to [20, 2000] Hz and map it linearly onto `270 + normalized * 120`.
The source performs no wrap past 360; it returns the raw affine image. -/
def mapFrequencyToHue (frequency : ℚ) : ℚ :=
  let minFreq : ℚ := 20
  let maxFreq : ℚ := 2000
  let clampedFreq := max minFreq (min maxFreq frequency)
  let normalizedFreq := (clampedFreq - minFreq) / (maxFreq - minFreq)
  270 + normalizedFreq * 120

/-! ## Composite intensity scores -/

/-- Embedding of the composite score computed at the top of `detectPeak`
(pages/Index.tsx): `(audioScore * 0.5) + (motionScore * 0.3) +
(interactionScore * 0.2)`, where the audio score is the raw amplitude and
motion / interaction are normalized with `Math.min(1, x / 10)`. -/
def detectCompositeScore (audioAmplitude motionIntensity interactionFrequency : ℚ) : ℚ :=
  let audioScore := audioAmplitude
  let motionScore := min 1 (motionIntensity / 10)
  let interactionScore := min 1 (interactionFrequency / 10)
  audioScore * 0.5 + motionScore * 0.3 + interactionScore * 0.2

/-- Embedding of the combined intensity computed inside `updateSoundscape`
(lib/ambientSoundscape.ts): `amplitude * 0.4 + normalizedMotion * 0.35 +
normalizedInteraction * 0.25`, where motion / interaction are normalized with
`Math.min(1, x / 10)`. -/
def soundscapeCombinedIntensity (amplitude motion interaction : ℚ) : ℚ :=
  let normalizedMotion := min 1 (motion / 10)
  let normalizedInteraction := min 1 (interaction / 10)
  amplitude * 0.4 + normalizedMotion * 0.35 + normalizedInteraction * 0.25

/-- C1 counterexample: at amplitude 1, motion 0, interaction 0 the peak
detector scores 0.5 while the sound engine scores 0.4, so the peak-detection
score function and the `updateSoundscape` combined-intensity function are not
the same function of their inputs. -/
theorem detectCompositeScore_ne_soundscapeCombinedIntensity :
    detectCompositeScore 1 0 0 ≠ soundscapeCombinedIntensity 1 0 0 := by
  norm_num [detectCompositeScore, soundscapeCombinedIntensity]

/-- C1 amended: the peak detector weighs amplitude 0.5, normalized motion 0.3
and normalized interaction 0.2, which differs from the soundscape blend
0.4 / 0.35 / 0.25; the two scores differ by exactly
`(2 * amplitude - normalizedMotion - normalizedInteraction) / 20`, so they
agree only when `2 * amplitude = normalizedMotion + normalizedInteraction`. -/
theorem detectCompositeScore_eq_soundscape_add_diff
    (a m i : ℚ) :
    detectCompositeScore a m i =
      soundscapeCombinedIntensity a m i +
        (2 * a - min 1 (m / 10) - min 1 (i / 10)) / 20 := by
  simp only [detectCompositeScore, soundscapeCombinedIntensity]
  ring

/-- C2 counterexample: `mapFrequencyToHue 2000` is 390, which is not below
360 and is not the claimed wrapped value 30; the source never wraps the hue
past 360. -/
theorem mapFrequencyToHue_max_not_wrapped :
    mapFrequencyToHue 2000 = 390 ∧
      ¬ mapFrequencyToHue 2000 < 360 ∧
      mapFrequencyToHue 2000 ≠ 30 := by
  norm_num [mapFrequencyToHue]

/-- C2 amended: for every rational input frequency, `mapFrequencyToHue`
clamps the frequency to [20, 2000] and lands in the interval [270, 390]
(no wrap into [0, 360) is performed by the function itself; 390 is only
equivalent to hue 30 modulo 360 downstream); the endpoints map to
`mapFrequencyToHue 20 = 270` and `mapFrequencyToHue 2000 = 390`. -/
theorem mapFrequencyToHue_range (freq : ℚ) :
    270 ≤ mapFrequencyToHue freq ∧
      mapFrequencyToHue freq ≤ 390 ∧
      mapFrequencyToHue 20 = 270 ∧
      mapFrequencyToHue 2000 = 390 := by
  have h1 : (20 : ℚ) ≤ max 20 (min 2000 freq) := le_max_left _ _
  have h2 : max 20 (min 2000 freq) ≤ 2000 :=
    max_le (by norm_num) (min_le_left _ _)
  have h3 : 0 ≤ (max 20 (min 2000 freq) - 20) / (2000 - 20) * 120 :=
    mul_nonneg (div_nonneg (by linarith) (by norm_num)) (by norm_num)
  have h4 : (max 20 (min 2000 freq) - 20) / (2000 - 20) * 120 ≤ 120 := by
    rw [div_mul_eq_mul_div, div_le_iff₀ (by norm_num : (0 : ℚ) < 2000 - 20)]
    linarith
  refine ⟨?_, ?_, ?_, ?_⟩
  · simp only [mapFrequencyToHue]
    linarith
  · simp only [mapFrequencyToHue]
    linarith
  · norm_num [mapFrequencyToHue]
  · norm_num [mapFrequencyToHue]

/-! ## Experience state machine (components/StateManager.tsx) -/

/-- The four experience states of the session (`ContextState` in the source). -/
inductive CState where
  | intro
  | active
  | immersive
  | reflection
deriving DecidableEq

/-- Embedding of the `checkState` closure evaluated every 1000 ms inside
`StateManager`: first the 60 s idle transition to `reflection` (with an early
return), then the intro-completion transition, then the two
interaction-frequency driven transitions; when no branch matches the
component leaves the state unchanged. -/
def checkState (timeSinceInteraction : ℕ) (introComplete : Bool)
    (interactionFrequency : ℚ) (contextState : CState) : CState :=
  if 60000 < timeSinceInteraction ∧ contextState ≠ CState.reflection ∧
      contextState ≠ CState.intro then
    CState.reflection
  else if introComplete = true ∧ interactionFrequency = 0 ∧
      contextState = CState.intro then
    CState.active
  else if 0 < interactionFrequency ∧ interactionFrequency ≤ 5 ∧
      contextState ≠ CState.active then
    CState.active
  else if 5 < interactionFrequency ∧ contextState ≠ CState.immersive then
    CState.immersive
  else
    contextState

/-- C3 counterexample: with interactionFrequency 7 (> 5) but 60001 ms since
the last nonzero interaction, a tick taken in `active` moves to `reflection`,
not `immersive`: the idle transition is checked first and returns early. -/
theorem checkState_reflection_overrides_immersive :
    checkState 60001 false 7 CState.active = CState.reflection ∧
      CState.reflection ≠ CState.immersive := by
  constructor
  · rfl
  · decide

/-- C3 amended: whenever `interactionFrequency > 5` at a state-machine
evaluation tick, the machine transitions to `immersive` from every state,
provided the 60 s idle transition to `reflection` does not fire first (i.e.
at most 60000 ms have passed since the last nonzero interaction, or the
current state is `intro` or `reflection`, which the idle rule excludes). -/
theorem checkState_immersive (timeSince : ℕ) (introComplete : Bool)
    (iF : ℚ) (s : CState) (hf : 5 < iF)
    (h : timeSince ≤ 60000 ∨ s = CState.intro ∨ s = CState.reflection) :
    checkState timeSince introComplete iF s = CState.immersive := by
  have h1 : ¬(60000 < timeSince ∧ s ≠ CState.reflection ∧ s ≠ CState.intro) := by
    rcases h with h | h | h
    · exact fun hc => absurd hc.1 (by omega)
    · exact fun hc => hc.2.2 h
    · exact fun hc => hc.2.1 h
  have h2 : ¬(introComplete = true ∧ iF = 0 ∧ s = CState.intro) := by
    intro hc
    rw [hc.2.1] at hf
    norm_num at hf
  have h3 : ¬(0 < iF ∧ iF ≤ 5 ∧ s ≠ CState.active) := by
    intro hc
    linarith [hc.2.1]
  unfold checkState
  rw [if_neg h1, if_neg h2, if_neg h3]
  by_cases hs : s = CState.immersive
  · rw [if_neg (fun hc => hc.2 hs), hs]
  · rw [if_pos ⟨hf, hs⟩]

/-- Witness for C3: from `active` with interactionFrequency 7 and a fresh
interaction timestamp, the next tick lands in `immersive`. -/
theorem checkState_immersive_witness :
    checkState 0 false 7 CState.active = CState.immersive :=
  checkState_immersive 0 false 7 CState.active (by norm_num)
    (Or.inl (by norm_num))

/-! ## Interaction tracker (pages/Index.tsx) -/

/-- The three operations that mutate `interactionFrequency` in Index.tsx:
a click (`handleInteraction`, `Math.min(10, prev + 1)`), an audio-driven
increment (the visualizer callback, `Math.min(10, prev + amplitude * 4)`
guarded by `amplitude > 0.05`), and the delayed decay
(`Math.max(0, prev - 0.5)` scheduled 2000 ms after each click). -/
inductive InteractionEvent where
  | click
  | audio (amplitude : ℚ)
  | decay

/-- Embedding of one `interactionFrequency` update. -/
def applyInteractionEvent (iF : ℚ) : InteractionEvent → ℚ
  | InteractionEvent.click => min 10 (iF + 1)
  | InteractionEvent.audio amplitude =>
      if 0.05 < amplitude then min 10 (iF + amplitude * 4) else iF
  | InteractionEvent.decay => max 0 (iF - 0.5)

/-- Folding an arbitrary burst of interaction events over a starting value. -/
def runInteraction (iF : ℚ) (events : List InteractionEvent) : ℚ :=
  events.foldl applyInteractionEvent iF

/-- One interaction update keeps the value inside [0, 10]. -/
theorem applyInteractionEvent_mem (iF : ℚ) (e : InteractionEvent)
    (h0 : 0 ≤ iF) (h10 : iF ≤ 10) :
    0 ≤ applyInteractionEvent iF e ∧ applyInteractionEvent iF e ≤ 10 := by
  cases e with
  | click =>
      exact ⟨le_min (by norm_num) (by linarith), min_le_left _ _⟩
  | audio amplitude =>
      simp only [applyInteractionEvent]
      split
      · next ha =>
          exact ⟨le_min (by norm_num) (by nlinarith), min_le_left _ _⟩
      · exact ⟨h0, h10⟩
  | decay =>
      refine ⟨le_max_left _ _, max_le (by norm_num) (by linarith)⟩

/-- Any event burst starting inside [0, 10] stays inside [0, 10]. -/
theorem runInteraction_mem (events : List InteractionEvent) :
    ∀ iF : ℚ, 0 ≤ iF → iF ≤ 10 →
      0 ≤ runInteraction iF events ∧ runInteraction iF events ≤ 10 := by
  induction events with
  | nil => exact fun iF h0 h10 => ⟨h0, h10⟩
  | cons e rest ih =>
      intro iF h0 h10
      have hstep := applyInteractionEvent_mem iF e h0 h10
      exact ih (applyInteractionEvent iF e) hstep.1 hstep.2

/-- C7: starting from the initial value 0, after any sequence and burst rate
of click increments, amplitude-scaled audio increments and delayed decays,
`interactionFrequency` never exceeds 10 and never drops below 0. -/
theorem interactionFrequency_bounds (events : List InteractionEvent) :
    0 ≤ runInteraction 0 events ∧ runInteraction 0 events ≤ 10 :=
  runInteraction_mem events 0 (by norm_num) (by norm_num)

/-! ## Peak detector / auto-capture controller (pages/Index.tsx) -/

/-- One sensitivity preset: base threshold and cooldown in milliseconds
(`label` and `description` strings are presentational and omitted). -/
structure Preset where
  threshold : ℚ
  cooldown : ℕ

/-- The selectable sensitivity modes (`SensitivityMode` in the source). -/
inductive SensitivityMode where
  | subtle
  | balanced
  | explosive
deriving DecidableEq

/-- Embedding of `SENSITIVITY_PRESETS` from Index.tsx. -/
def SENSITIVITY_PRESETS : SensitivityMode → Preset
  | SensitivityMode.subtle => ⟨0.85, 8000⟩
  | SensitivityMode.balanced => ⟨0.7, 5000⟩
  | SensitivityMode.explosive => ⟨0.55, 3000⟩

/-- Embedding of the significance-threshold ternary in `detectPeak`:
`sensitivityMode === 'explosive' ? 0.5 : sensitivityMode === 'subtle' ? 0.8 : 0.7`. -/
def significanceThreshold : SensitivityMode → ℚ
  | SensitivityMode.explosive => 0.5
  | SensitivityMode.subtle => 0.8
  | SensitivityMode.balanced => 0.7

/-- The mutable detector state: the rolling window `recentPeaks` (stored in
`peakDetectionRef`) and the `lastCaptureTime` React state. -/
structure PeakState where
  recentPeaks : List ℚ
  lastCaptureTime : ℕ
deriving DecidableEq

/-- Initial detector state: empty window, `lastCaptureTime` 0. -/
def initPeakState : PeakState := ⟨[], 0⟩

/-- Embedding of the window update in `detectPeak`:
`peaks.push(compositeScore); if (peaks.length > 50) peaks.shift();`. -/
def updateWindow (peaks : List ℚ) (score : ℚ) : List ℚ :=
  let pushed := peaks ++ [score]
  if 50 < pushed.length then pushed.drop 1 else pushed

/-- The inputs sampled by one 500 ms `detectPeak` poll: the wall-clock time
`Date.now()` and the three control values read from React state. -/
structure PollInput where
  now : ℕ
  audioAmplitude : ℚ
  motionIntensity : ℚ
  interactionFrequency : ℚ

/-- Embedding of one `detectPeak` poll: compute the composite score, update
the rolling window, derive the adaptive threshold
`Math.max(t - 0.1, Math.min(t + 0.1, avg + 0.1))`, and fire exactly when the
score beats the threshold, the preset cooldown has elapsed since the last
capture, and the significance gate passes; on firing, `lastCaptureTime` is
set to the poll time.  Returns the new state and whether a capture fired. -/
def detectPeak (mode : SensitivityMode) (input : PollInput) (s : PeakState) :
    PeakState × Bool :=
  let preset := SENSITIVITY_PRESETS mode
  let compositeScore :=
    detectCompositeScore input.audioAmplitude input.motionIntensity
      input.interactionFrequency
  let peaks := updateWindow s.recentPeaks compositeScore
  let avgPeak := peaks.foldl (· + ·) 0 / (peaks.length : ℚ)
  let dynamicThreshold :=
    max (preset.threshold - 0.1) (min (preset.threshold + 0.1) (avgPeak + 0.1))
  let timeSinceLastCapture := input.now - s.lastCaptureTime
  let sig := significanceThreshold mode
  if (dynamicThreshold < compositeScore ∧
        preset.cooldown < timeSinceLastCapture) ∧
      (sig < input.audioAmplitude ∨
        (10 - sig * 5 < input.motionIntensity ∧
          10 - sig * 5 < input.interactionFrequency)) then
    ({ recentPeaks := peaks, lastCaptureTime := input.now }, true)
  else
    ({ recentPeaks := peaks, lastCaptureTime := s.lastCaptureTime }, false)

/-- Running the 500 ms polling loop over a list of sampled inputs, collecting
the timestamps at which a capture fired, in order. -/
def runDetect (mode : SensitivityMode) (s : PeakState) :
    List PollInput → PeakState × List ℕ
  | [] => (s, [])
  | input :: rest =>
      let step := detectPeak mode input s
      let tail := runDetect mode step.1 rest
      (tail.1, if step.2 then input.now :: tail.2 else tail.2)

/-- The window stored after a poll is always the pushed-and-shifted window. -/
theorem detectPeak_recentPeaks (mode : SensitivityMode) (input : PollInput)
    (s : PeakState) :
    (detectPeak mode input s).1.recentPeaks =
      updateWindow s.recentPeaks
        (detectCompositeScore input.audioAmplitude input.motionIntensity
          input.interactionFrequency) := by
  simp only [detectPeak]
  split <;> rfl

/-- Firing requires the cooldown to have elapsed and records the poll time;
a non-firing poll leaves `lastCaptureTime` unchanged. -/
theorem detectPeak_lastCaptureTime (mode : SensitivityMode) (input : PollInput)
    (s : PeakState) :
    ((detectPeak mode input s).2 = true →
        s.lastCaptureTime + (SENSITIVITY_PRESETS mode).cooldown < input.now ∧
          (detectPeak mode input s).1.lastCaptureTime = input.now) ∧
      ((detectPeak mode input s).2 = false →
        (detectPeak mode input s).1.lastCaptureTime = s.lastCaptureTime) := by
  simp only [detectPeak]
  split
  · next hcond =>
      refine ⟨fun _ => ⟨?_, rfl⟩, fun hfalse => by simp at hfalse⟩
      have hc := hcond.1.2
      omega
  · exact ⟨fun htrue => by simp at htrue, fun _ => rfl⟩

/-- Along any run, consecutive fire timestamps are separated by more than the
preset cooldown, and the first fire is more than a cooldown after the
incoming `lastCaptureTime`. -/
theorem runDetect_fires_spaced (mode : SensitivityMode) :
    ∀ (inputs : List PollInput) (s : PeakState),
      List.Chain' (fun t1 t2 => t1 + (SENSITIVITY_PRESETS mode).cooldown < t2)
          (runDetect mode s inputs).2 ∧
        ∀ t, (runDetect mode s inputs).2.head? = some t →
          s.lastCaptureTime + (SENSITIVITY_PRESETS mode).cooldown < t := by
  intro inputs
  induction inputs with
  | nil =>
      intro s
      exact ⟨List.chain'_nil, fun t ht => by simp [runDetect] at ht⟩
  | cons input rest ih =>
      intro s
      have hlast := detectPeak_lastCaptureTime mode input s
      obtain ⟨ihChain, ihHead⟩ := ih (detectPeak mode input s).1
      by_cases hf : (detectPeak mode input s).2 = true
      · have hfire := hlast.1 hf
        constructor
        · show List.Chain' _ (runDetect mode s (input :: rest)).2
          have : (runDetect mode s (input :: rest)).2 =
              input.now :: (runDetect mode (detectPeak mode input s).1 rest).2 := by
            simp [runDetect, hf]
          rw [this, List.chain'_cons']
          refine ⟨fun t ht => ?_, ihChain⟩
          have := ihHead t ht
          omega
        · intro t ht
          have : (runDetect mode s (input :: rest)).2 =
              input.now :: (runDetect mode (detectPeak mode input s).1 rest).2 := by
            simp [runDetect, hf]
          rw [this] at ht
          simp at ht
          omega
      · have hb : (detectPeak mode input s).2 = false := by
          simpa using hf
        have hkeep := hlast.2 hb
        have : (runDetect mode s (input :: rest)).2 =
            (runDetect mode (detectPeak mode input s).1 rest).2 := by
          simp [runDetect, hb]
        rw [this]
        refine ⟨ihChain, fun t ht => ?_⟩
        have := ihHead t ht
        omega

/-- C4: along every polling trace, consecutive auto-capture timestamps are
separated by strictly more than the active preset cooldown, which is 8000 ms
for subtle, 5000 ms for balanced and 3000 ms for explosive; a firing records
the capture timestamp and the detector cannot fire again until the cooldown
re-elapses, however high the composite score stays. -/
theorem autoCapture_cooldown_spacing (mode : SensitivityMode)
    (inputs : List PollInput) :
    List.Chain' (fun t1 t2 => t1 + (SENSITIVITY_PRESETS mode).cooldown < t2)
        (runDetect mode initPeakState inputs).2 ∧
      (SENSITIVITY_PRESETS SensitivityMode.subtle).cooldown = 8000 ∧
      (SENSITIVITY_PRESETS SensitivityMode.balanced).cooldown = 5000 ∧
      (SENSITIVITY_PRESETS SensitivityMode.explosive).cooldown = 3000 :=
  ⟨(runDetect_fires_spaced mode inputs initPeakState).1, rfl, rfl, rfl⟩

/-- One window update never grows the window past 50 samples. -/
theorem updateWindow_length_le (peaks : List ℚ) (score : ℚ)
    (h : peaks.length ≤ 50) : (updateWindow peaks score).length ≤ 50 := by
  simp only [updateWindow]
  split <;> simp_all

/-- The window length stays at most 50 along any run. -/
theorem runDetect_window_le (mode : SensitivityMode) :
    ∀ (inputs : List PollInput) (s : PeakState),
      s.recentPeaks.length ≤ 50 →
      (runDetect mode s inputs).1.recentPeaks.length ≤ 50 := by
  intro inputs
  induction inputs with
  | nil => exact fun s hs => hs
  | cons input rest ih =>
      intro s hs
      have hstep : (detectPeak mode input s).1.recentPeaks.length ≤ 50 := by
        rw [detectPeak_recentPeaks]
        exact updateWindow_length_le _ _ hs
      show (runDetect mode (detectPeak mode input s).1 rest).1.recentPeaks.length ≤ 50
      exact ih _ hstep

/-- C5: after every sequence of peak-detection polls the rolling window holds
at most 50 samples, and appending to a full 50-sample window evicts exactly
the oldest sample (the head), i.e. the updated window is the old tail with
the new sample appended. -/
theorem peakWindow_capacity_fifo (mode : SensitivityMode)
    (inputs : List PollInput) (peaks : List ℚ) (score : ℚ)
    (hfull : peaks.length = 50) :
    (runDetect mode initPeakState inputs).1.recentPeaks.length ≤ 50 ∧
      updateWindow peaks score = peaks.tail ++ [score] := by
  constructor
  · exact runDetect_window_le mode inputs initPeakState (by simp [initPeakState])
  · simp only [updateWindow]
    rw [if_pos (by simp [hfull])]
    cases peaks with
    | nil => simp at hfull
    | cons p ps => rfl

/-- Witness for C5: the empty trace keeps the window within capacity, and
pushing 1 onto a full window of fifty zeros drops the leading zero. -/
theorem peakWindow_capacity_fifo_witness :
    (runDetect SensitivityMode.balanced initPeakState []).1.recentPeaks.length ≤ 50 ∧
      updateWindow (List.replicate 50 (0 : ℚ)) 1 =
        (List.replicate 50 (0 : ℚ)).tail ++ [1] :=
  peakWindow_capacity_fifo SensitivityMode.balanced [] (List.replicate 50 0) 1
    (by simp)

/-! ## Ambient soundscape lifecycle (lib/ambientSoundscape.ts) -/

/-- Module-level state of the ambient soundscape engine.  Audio nodes are
abstracted as identifiers allocated from the counter `nextId`; one identifier
stands for one layer and its node group (a drone layer's oscillator and LFO,
the sub-bass oscillator, the noise source).  `stopsIssued` records every node
that has received its `stop()` call; `caughtErrors` counts exceptions
swallowed by the `try { ... } catch (e) {}` wrappers around those calls;
`pendingTeardowns` counts fade-out timeouts scheduled by
`stopAmbientSoundscape` but not yet executed. -/
structure SoundState where
  isPlaying : Bool
  hasContext : Bool
  droneLayers : List ℕ
  subBass : Option ℕ
  noiseNode : Option ℕ
  stopsIssued : List ℕ
  caughtErrors : ℕ
  pendingTeardowns : ℕ
  nextId : ℕ
deriving DecidableEq

/-- Initial module state: `isPlaying = false`, no context, no nodes. -/
def initSoundState : SoundState :=
  ⟨false, false, [], none, none, [], 0, 0, 0⟩

/-- The nodes currently owned by the engine: the drone layers, the sub bass
and the noise source. -/
def activeNodes (s : SoundState) : List ℕ :=
  s.droneLayers ++ (s.subBass.toList ++ s.noiseNode.toList)

/-- Embedding of `startAmbientSoundscape`: `if (isPlaying) return;` and
otherwise initialize the context, push one drone layer per pentatonic ratio
(six of them), create the sub-bass oscillator and the noise source, and mark
the soundscape playing. -/
def startAmbientSoundscape (s : SoundState) : SoundState :=
  if s.isPlaying = true then s
  else
    { s with
      hasContext := true,
      droneLayers := s.droneLayers ++
        [s.nextId, s.nextId + 1, s.nextId + 2, s.nextId + 3, s.nextId + 4,
          s.nextId + 5],
      subBass := some (s.nextId + 6),
      noiseNode := some (s.nextId + 7),
      nextId := s.nextId + 8,
      isPlaying := true }

/-- Embedding of `stopAmbientSoundscape`: `if (!isPlaying || !audioContext)
return;` and otherwise schedule the delayed teardown (`setTimeout` after the
2 s fade); `isPlaying` is only cleared when the teardown itself runs. -/
def stopAmbientSoundscape (s : SoundState) : SoundState :=
  if s.isPlaying = false ∨ s.hasContext = false then s
  else { s with pendingTeardowns := s.pendingTeardowns + 1 }

/-- Embedding of the teardown body of the `setTimeout` in
`stopAmbientSoundscape`: stop every drone layer, the sub bass and the noise
source (each `stop()` wrapped in `try/catch`), clear all node references and
clear `isPlaying`.  A `stop()` on a node that was already stopped would throw
and be swallowed; such events are tallied in `caughtErrors`. -/
def runTeardown (s : SoundState) : SoundState :=
  if s.pendingTeardowns = 0 then s
  else
    { s with
      stopsIssued := s.stopsIssued ++ activeNodes s,
      caughtErrors := s.caughtErrors +
        ((activeNodes s).filter (fun id => decide (id ∈ s.stopsIssued))).length,
      droneLayers := [],
      subBass := none,
      noiseNode := none,
      isPlaying := false,
      pendingTeardowns := s.pendingTeardowns - 1 }

/-- The engine events the page can interleave: a `startAmbientSoundscape`
call, a `stopAmbientSoundscape` call, and the firing of one scheduled
teardown timeout. -/
inductive SoundEvent where
  | start
  | stop
  | teardown

/-- One engine event applied to the module state. -/
def soundStep (s : SoundState) : SoundEvent → SoundState
  | SoundEvent.start => startAmbientSoundscape s
  | SoundEvent.stop => stopAmbientSoundscape s
  | SoundEvent.teardown => runTeardown s

/-- Folding a list of engine events from a given state. -/
def runSoundFrom (s : SoundState) : List SoundEvent → SoundState
  | [] => s
  | e :: rest => runSoundFrom (soundStep s e) rest

/-- Folding a list of engine events from the initial module state. -/
def runSound (events : List SoundEvent) : SoundState :=
  runSoundFrom initSoundState events

/-- Engine invariant: no node ever receives two `stop()` calls (the issued
stops together with the still-active nodes are pairwise distinct), no
exception was ever swallowed, and every allocated identifier is below the
allocation counter. -/
def SoundInv (s : SoundState) : Prop :=
  (s.stopsIssued ++ activeNodes s).Nodup ∧
    s.caughtErrors = 0 ∧
    ∀ id ∈ s.stopsIssued ++ activeNodes s, id < s.nextId

/-- The initial state satisfies the engine invariant. -/
theorem soundInv_init : SoundInv initSoundState := by
  refine ⟨?_, rfl, ?_⟩ <;> simp [initSoundState, activeNodes]

/-- Identifier-freshness helper: appending a block of fresh identifiers, all
at least the allocation bound, to a nodup list of identifiers strictly below
the bound keeps the list nodup. -/
theorem nodup_append_of_lt_of_ge (old fresh : List ℕ) (bound : ℕ)
    (hold : old.Nodup) (hfresh : fresh.Nodup)
    (hlt : ∀ id ∈ old, id < bound) (hge : ∀ id ∈ fresh, bound ≤ id) :
    (old ++ fresh).Nodup := by
  refine List.Nodup.append hold hfresh ?_
  rw [List.disjoint_left]
  intro a ha haf
  have h1 := hlt a ha
  have h2 := hge a haf
  omega

/-- Starting the soundscape preserves the engine invariant: the new layers
are allocated strictly above every identifier seen so far. -/
theorem soundInv_start (s : SoundState) (h : SoundInv s) :
    SoundInv (startAmbientSoundscape s) := by
  unfold startAmbientSoundscape
  split
  · exact h
  · obtain ⟨hnd, herr, hlt⟩ := h
    have hsub : List.Sublist (s.stopsIssued ++ s.droneLayers)
        (s.stopsIssued ++ activeNodes s) := by
      simp only [activeNodes]
      exact List.Sublist.append_left (List.sublist_append_left _ _) _
    have hold : (s.stopsIssued ++ s.droneLayers).Nodup := hnd.sublist hsub
    have holdlt : ∀ id ∈ s.stopsIssued ++ s.droneLayers, id < s.nextId :=
      fun id hid => hlt id (hsub.subset hid)
    unfold SoundInv
    refine ⟨?_, herr, ?_⟩
    · simp only [activeNodes, Option.toList_some, List.append_assoc,
        List.cons_append, List.nil_append]
      rw [← List.append_assoc]
      refine nodup_append_of_lt_of_ge _ _ s.nextId hold ?_ holdlt ?_
      · simp
      · intro id hid
        simp at hid
        omega
    · intro id hid
      dsimp only
      simp only [activeNodes, Option.toList_some, List.append_assoc,
        List.cons_append, List.nil_append] at hid
      rw [← List.append_assoc] at hid
      rcases List.mem_append.mp hid with hmem | hmem
      · have := holdlt id hmem
        omega
      · simp at hmem
        omega

/-- Scheduling a stop (the `stopAmbientSoundscape` call itself) only touches
the pending-teardown counter and preserves the engine invariant. -/
theorem soundInv_stop (s : SoundState) (h : SoundInv s) :
    SoundInv (stopAmbientSoundscape s) := by
  unfold stopAmbientSoundscape
  split
  · exact h
  · exact h

/-- Executing one scheduled teardown preserves the engine invariant: the
stopped nodes were never stopped before (so no exception is swallowed), and
afterwards no active node remains. -/
theorem soundInv_teardown (s : SoundState) (h : SoundInv s) :
    SoundInv (runTeardown s) := by
  unfold runTeardown
  split
  · exact h
  · obtain ⟨hnd, herr, hlt⟩ := h
    have hdisj : ∀ id ∈ activeNodes s, id ∉ s.stopsIssued := by
      intro id hid hstop
      exact (List.disjoint_of_nodup_append hnd) hstop hid
    have hfilter :
        (activeNodes s).filter (fun id => decide (id ∈ s.stopsIssued)) = [] := by
      rw [List.filter_eq_nil_iff]
      intro a ha
      simp [hdisj a ha]
    unfold SoundInv
    refine ⟨?_, ?_, ?_⟩
    · simpa only [activeNodes, Option.toList_none, List.append_nil,
        List.nil_append, List.append_assoc] using hnd
    · rw [hfilter, herr]
      rfl
    · intro id hid
      apply hlt
      simp only [activeNodes, Option.toList_none, List.append_nil,
        List.nil_append, List.append_assoc] at hid ⊢
      exact hid

/-- The engine invariant holds along every event trace. -/
theorem soundInv_runFrom (events : List SoundEvent) :
    ∀ s : SoundState, SoundInv s → SoundInv (runSoundFrom s events) := by
  induction events with
  | nil => exact fun _ hs => hs
  | cons e rest ih =>
      intro s hs
      show SoundInv (runSoundFrom (soundStep s e) rest)
      refine ih _ ?_
      cases e with
      | start => exact soundInv_start s hs
      | stop => exact soundInv_stop s hs
      | teardown => exact soundInv_teardown s hs

/-- Every reachable engine state satisfies the invariant. -/
theorem soundInv_run (events : List SoundEvent) : SoundInv (runSound events) :=
  soundInv_runFrom events initSoundState soundInv_init

/-- C8: calling `startAmbientSoundscape` while the soundscape is already
playing leaves the module state exactly unchanged (no duplicate layers), and
along every event trace — in particular two `stopAmbientSoundscape` calls in
a row followed by their two scheduled teardowns — every node is stopped and
released at most once and no exception is even raised inside the guarded
teardown (`caughtErrors` stays 0). -/
theorem soundscape_start_stop_idempotent (pre post : List SoundEvent)
    (h : (runSound pre).isPlaying = true) :
    startAmbientSoundscape (runSound pre) = runSound pre ∧
      (runSound post).stopsIssued.Nodup ∧
      (runSound post).caughtErrors = 0 := by
  refine ⟨?_, ?_, ?_⟩
  · unfold startAmbientSoundscape
    rw [if_pos h]
  · exact List.Nodup.of_append_left (soundInv_run post).1
  · exact (soundInv_run post).2.1

/-- Witness for C8: after a single `start` the soundscape is playing and a
further `start` is a no-op; the trace start, stop, stop, teardown, teardown
(a double stop with both scheduled teardowns firing) stops each node at most
once and swallows no exception. -/
theorem soundscape_start_stop_idempotent_witness :
    startAmbientSoundscape (runSound [SoundEvent.start]) =
        runSound [SoundEvent.start] ∧
      (runSound [SoundEvent.start, SoundEvent.stop, SoundEvent.stop,
          SoundEvent.teardown, SoundEvent.teardown]).stopsIssued.Nodup ∧
      (runSound [SoundEvent.start, SoundEvent.stop, SoundEvent.stop,
          SoundEvent.teardown, SoundEvent.teardown]).caughtErrors = 0 :=
  soundscape_start_stop_idempotent [SoundEvent.start]
    [SoundEvent.start, SoundEvent.stop, SoundEvent.stop,
      SoundEvent.teardown, SoundEvent.teardown] (by decide)

/-! ## Amplitude mapper and JavaScript NaN propagation -/

/-- Embedding of `mapAmplitudeToIntensity` (audioVisualization.ts) on real
inputs: `Math.min(10, Math.pow(amplitude, 0.7) * 10)`. -/
noncomputable def mapAmplitudeToIntensity (amplitude : ℝ) : ℝ :=
  min 10 (amplitude ^ (0.7 : ℝ) * 10)

/-- JavaScript `Math.min` on the NaN-extended domain (`none` stands for NaN):
any NaN operand makes the result NaN. -/
def jsMin {α : Type} [LinearOrder α] (a b : Option α) : Option α :=
  match a, b with
  | some x, some y => some (min x y)
  | _, _ => none

/-- JavaScript `Math.max` on the NaN-extended domain. -/
def jsMax {α : Type} [LinearOrder α] (a b : Option α) : Option α :=
  match a, b with
  | some x, some y => some (max x y)
  | _, _ => none

/-- JavaScript addition on the NaN-extended domain. -/
def jsAdd {α : Type} [Add α] (a b : Option α) : Option α :=
  match a, b with
  | some x, some y => some (x + y)
  | _, _ => none

/-- JavaScript subtraction on the NaN-extended domain. -/
def jsSub {α : Type} [Sub α] (a b : Option α) : Option α :=
  match a, b with
  | some x, some y => some (x - y)
  | _, _ => none

/-- JavaScript multiplication on the NaN-extended domain. -/
def jsMul {α : Type} [Mul α] (a b : Option α) : Option α :=
  match a, b with
  | some x, some y => some (x * y)
  | _, _ => none

/-- JavaScript division on the NaN-extended domain.  (Division by zero gives
an infinity in JavaScript, not NaN; infinities are outside this model and
the only divisor reached below is the constant 1980.) -/
def jsDiv {α : Type} [Div α] (a b : Option α) : Option α :=
  match a, b with
  | some x, some y => some (x / y)
  | _, _ => none

/-- JavaScript `Math.pow` at a non-integer exponent on the NaN-extended real
domain: a NaN base gives NaN, a negative base with a non-integer exponent
(0.7 here) gives NaN, otherwise the real power. -/
noncomputable def jsPow (a : Option ℝ) (c : ℝ) : Option ℝ :=
  match a with
  | none => none
  | some x => if x < 0 then none else some (x ^ c)

/-- Embedding of `mapFrequencyToHue` on the NaN-extended domain: the clamp
`Math.max(minFreq, Math.min(maxFreq, frequency))` propagates NaN, and so do
the subsequent arithmetic steps. -/
def mapFrequencyToHueJS (frequency : Option ℚ) : Option ℚ :=
  let minFreq : Option ℚ := some 20
  let maxFreq : Option ℚ := some 2000
  let clampedFreq := jsMax minFreq (jsMin maxFreq frequency)
  let normalizedFreq := jsDiv (jsSub clampedFreq minFreq) (jsSub maxFreq minFreq)
  jsAdd (some 270) (jsMul normalizedFreq (some 120))

/-- Embedding of `mapAmplitudeToIntensity` on the NaN-extended domain. -/
noncomputable def mapAmplitudeToIntensityJS (amplitude : Option ℝ) : Option ℝ :=
  jsMin (some 10) (jsMul (jsPow amplitude 0.7) (some 10))

/-- C6 counterexample: NaN input is not treated as 0, it propagates:
`mapFrequencyToHue(NaN)` is NaN rather than the hue 270 produced for input
0, and `mapAmplitudeToIntensity(NaN)` is NaN rather than 0. -/
theorem nan_propagates_not_zeroed :
    mapFrequencyToHueJS none = none ∧
      mapFrequencyToHueJS none ≠ some 270 ∧
      mapAmplitudeToIntensityJS none = none ∧
      mapAmplitudeToIntensityJS none ≠ some 0 := by
  have h1 : mapFrequencyToHueJS none = none := rfl
  have h2 : mapAmplitudeToIntensityJS none = none := rfl
  refine ⟨h1, ?_, h2, ?_⟩
  · rw [h1]
    simp
  · rw [h2]
    simp

/-- C6 amended: both mappers are total functions that never throw, and on
ordinary (non-NaN) inputs the NaN-extended versions agree with the plain
embeddings, so no NaN is created from a real input (the amplitude mapper
needs a nonnegative input, since `Math.pow` of a negative base with the
non-integer exponent 0.7 is NaN); a NaN input, however, propagates to a NaN
output instead of being treated as 0. -/
theorem mappers_total_nan_propagation (x : ℚ) (y : ℝ) (hy : 0 ≤ y) :
    mapFrequencyToHueJS (some x) = some (mapFrequencyToHue x) ∧
      mapAmplitudeToIntensityJS (some y) = some (mapAmplitudeToIntensity y) ∧
      mapFrequencyToHueJS none = none ∧
      mapAmplitudeToIntensityJS none = none := by
  refine ⟨rfl, ?_, rfl, rfl⟩
  simp only [mapAmplitudeToIntensityJS, jsPow]
  rw [if_neg (not_lt.mpr hy)]
  rfl

/-- Witness for C6: input 0 maps to hue 270 and intensity 0 through the
NaN-extended versions, while NaN stays NaN. -/
theorem mappers_total_nan_propagation_witness :
    mapFrequencyToHueJS (some 0) = some (mapFrequencyToHue 0) ∧
      mapAmplitudeToIntensityJS (some 0) = some (mapAmplitudeToIntensity 0) ∧
      mapFrequencyToHueJS none = none ∧
      mapAmplitudeToIntensityJS none = none :=
  mappers_total_nan_propagation 0 0 le_rfl

/-- C9: for all amplitudes `a ≤ b` inside [0, 1], `mapAmplitudeToIntensity`
equals `min(10, amp ^ 0.7 * 10)`, lies in [0, 10], and is monotonically
non-decreasing. -/
theorem mapAmplitudeToIntensity_bounds_mono (a b : ℝ)
    (ha : 0 ≤ a) (hab : a ≤ b) (hb : b ≤ 1) :
    mapAmplitudeToIntensity a = min 10 (a ^ (0.7 : ℝ) * 10) ∧
      0 ≤ mapAmplitudeToIntensity a ∧
      mapAmplitudeToIntensity a ≤ 10 ∧
      mapAmplitudeToIntensity a ≤ mapAmplitudeToIntensity b := by
  refine ⟨rfl, ?_, min_le_left _ _, ?_⟩
  · show 0 ≤ min 10 (a ^ (0.7 : ℝ) * 10)
    exact le_min (by norm_num)
      (mul_nonneg (Real.rpow_nonneg ha _) (by norm_num))
  · show min 10 (a ^ (0.7 : ℝ) * 10) ≤ min 10 (b ^ (0.7 : ℝ) * 10)
    refine min_le_min le_rfl ?_
    exact mul_le_mul_of_nonneg_right
      (Real.rpow_le_rpow ha hab (by norm_num)) (by norm_num)

/-- Witness for C9: the bounds and monotonicity at the endpoints 0 and 1. -/
theorem mapAmplitudeToIntensity_bounds_mono_witness :
    mapAmplitudeToIntensity 0 = min 10 ((0 : ℝ) ^ (0.7 : ℝ) * 10) ∧
      0 ≤ mapAmplitudeToIntensity 0 ∧
      mapAmplitudeToIntensity 0 ≤ 10 ∧
      mapAmplitudeToIntensity 0 ≤ mapAmplitudeToIntensity 1 :=
  mapAmplitudeToIntensity_bounds_mono 0 1 le_rfl zero_le_one le_rfl

/-! ## Screenshot gallery persistence (components/ScreenshotGallery.tsx) -/

/-- A stored screenshot (`Screenshot` interface in the source). -/
structure Screenshot where
  id : String
  dataUrl : String
  timestamp : ℕ
deriving DecidableEq

/-- The raw content of the `synesthesia-screenshots` localStorage slot as
seen by `JSON.parse`: either well-formed JSON for a screenshot list, or a
malformed value on which `JSON.parse` throws. -/
inductive StoredData where
  | malformed
  | valid (shots : List Screenshot)
deriving DecidableEq

/-- The `stored ? JSON.parse(stored) : []` read for well-formed storage. -/
def parsedScreenshots (stored : Option StoredData) : List Screenshot :=
  match stored with
  | some (StoredData.valid shots) => shots
  | _ => []

/-- Embedding of `saveScreenshot`: read the existing list (an empty slot
reads as `[]`), build the new screenshot from the generated id token, the
data URL and `Date.now()`, prepend it, keep only the first 50 entries
(`[newScreenshot, ...existing].slice(0, 50)`) and write back.  The body is
wrapped in `try/catch`: a `JSON.parse` throw on a malformed slot or a quota
failure on `setItem` is caught and the function returns `false` with nothing
written (`none`); on success it returns `true` with the written list. -/
def saveScreenshot (stored : Option StoredData) (dataUrl idToken : String)
    (now : ℕ) (quotaOk : Bool) : Bool × Option (List Screenshot) :=
  match stored with
  | some StoredData.malformed => (false, none)
  | _ =>
      let existing := parsedScreenshots stored
      let newScreenshot : Screenshot := ⟨idToken, dataUrl, now⟩
      let updated := (newScreenshot :: existing).take 50
      if quotaOk = true then (true, some updated) else (false, none)

/-- C10: whenever the stored slot is parseable, a successful save writes the
new screenshot prepended (newest first) to the existing list truncated to at
most 50 entries, silently dropping everything beyond the cap; a quota
failure or a malformed slot makes `saveScreenshot` return `false` with
nothing written instead of raising. -/
theorem saveScreenshot_spec (stored : Option StoredData)
    (dataUrl idToken : String) (now : ℕ)
    (h : stored ≠ some StoredData.malformed) :
    saveScreenshot stored dataUrl idToken now true =
        (true, some (((⟨idToken, dataUrl, now⟩ : Screenshot) ::
          parsedScreenshots stored).take 50)) ∧
      (((⟨idToken, dataUrl, now⟩ : Screenshot) ::
          parsedScreenshots stored).take 50).length ≤ 50 ∧
      (((⟨idToken, dataUrl, now⟩ : Screenshot) ::
          parsedScreenshots stored).take 50).head? =
        some ⟨idToken, dataUrl, now⟩ ∧
      saveScreenshot stored dataUrl idToken now false = (false, none) ∧
      saveScreenshot (some StoredData.malformed) dataUrl idToken now true =
        (false, none) := by
  refine ⟨?_, ?_, ?_, ?_, rfl⟩
  · cases stored with
    | none => rfl
    | some sd =>
        cases sd with
        | malformed => exact absurd rfl h
        | valid shots => rfl
  · exact List.length_take_le _ _
  · rw [show (50 : ℕ) = 49 + 1 from rfl, List.take_succ_cons]
    rfl
  · cases stored with
    | none => rfl
    | some sd =>
        cases sd with
        | malformed => rfl
        | valid shots => rfl

/-- Witness for C10: saving into a well-formed empty gallery succeeds,
prepends the new screenshot, and stays within the 50-entry cap; the failing
branches return false. -/
theorem saveScreenshot_spec_witness :
    saveScreenshot (some (StoredData.valid [])) "data" "shot-1" 0 true =
        (true, some (((⟨"shot-1", "data", 0⟩ : Screenshot) ::
          parsedScreenshots (some (StoredData.valid []))).take 50)) ∧
      (((⟨"shot-1", "data", 0⟩ : Screenshot) ::
          parsedScreenshots (some (StoredData.valid []))).take 50).length ≤ 50 ∧
      (((⟨"shot-1", "data", 0⟩ : Screenshot) ::
          parsedScreenshots (some (StoredData.valid []))).take 50).head? =
        some ⟨"shot-1", "data", 0⟩ ∧
      saveScreenshot (some (StoredData.valid [])) "data" "shot-1" 0 false =
        (false, none) ∧
      saveScreenshot (some StoredData.malformed) "data" "shot-1" 0 true =
        (false, none) :=
  saveScreenshot_spec (some (StoredData.valid [])) "data" "shot-1" 0
    (by decide)
